import Mathlib

/-!
Verification of the tiered hybrid retrieval-and-ranking engine of the
candidate-matching service.

Scores are Python floats in the source; they are embedded as exact rationals
(`ℚ`), which is faithful for the order-theoretic and algebraic properties
checked here.  Python's stable `sorted(..., reverse=True)` is embedded as
`List.insertionSort` with a "descending" total preorder, which is likewise
stable (earlier-input elements come first among ties).
-/

namespace CandidateMatching

/-- Generic descending single-key sort order, modelling Python's
`sorted(xs, key=f, reverse=True)` comparisons. -/
def descBy {α : Type} (f : α → ℚ) (a b : α) : Prop := f b ≤ f a

/-- Generic descending lexicographic two-key sort order, modelling Python's
`sorted(xs, key=lambda x: (f x, g x), reverse=True)` comparisons. -/
def descLex {α : Type} (f g : α → ℚ) (a b : α) : Prop :=
  f b < f a ∨ (f b = f a ∧ g b ≤ g a)

instance {α : Type} (f : α → ℚ) : DecidableRel (descBy f) := fun a b => by
  unfold descBy; infer_instance

instance {α : Type} (f : α → ℚ) : IsTotal α (descBy f) :=
  ⟨fun a b => le_total (f b) (f a)⟩

instance {α : Type} (f : α → ℚ) : IsTrans α (descBy f) :=
  ⟨fun _ _ _ h1 h2 => le_trans h2 h1⟩

instance {α : Type} (f g : α → ℚ) : DecidableRel (descLex f g) := fun a b => by
  unfold descLex; infer_instance

instance {α : Type} (f g : α → ℚ) : IsTotal α (descLex f g) := by
  constructor
  intro a b
  unfold descLex
  rcases lt_trichotomy (f a) (f b) with h | h | h
  · exact Or.inr (Or.inl h)
  · rcases le_total (g a) (g b) with hg | hg
    · exact Or.inr (Or.inr ⟨h, hg⟩)
    · exact Or.inl (Or.inr ⟨h.symm, hg⟩)
  · exact Or.inl (Or.inl h)

instance {α : Type} (f g : α → ℚ) : IsTrans α (descLex f g) := by
  constructor
  intro a b c hab hbc
  unfold descLex at *
  rcases hab with h1 | ⟨h1, h1'⟩ <;> rcases hbc with h2 | ⟨h2, h2'⟩
  · exact Or.inl (lt_trans h2 h1)
  · exact Or.inl (h2 ▸ h1)
  · exact Or.inl (h1 ▸ h2)
  · exact Or.inr ⟨h2.trans h1, h2'.trans h1'⟩

/-- Keep the first occurrence of every element not yet in `seen`, in
first-seen order.  Models the key order of a Python insertion-ordered
`dict` being filled in list order. -/
def firstSeenAux (seen : List ℕ) : List ℕ → List ℕ
  | [] => []
  | x :: xs =>
    if x ∈ seen then firstSeenAux seen xs
    else x :: firstSeenAux (x :: seen) xs

/-- The distinct elements of a list, in first-seen order. -/
def firstSeen (l : List ℕ) : List ℕ := firstSeenAux [] l

/-! ## `backend/utils/helpers.py` -/

/-- Embedding of `calculate_experience_multiplier` (helpers.py). -/
def calculate_experience_multiplier (years : ℚ) : ℚ :=
  if years ≤ 1 then 1
  else if years ≤ 2 then 12/10
  else if years ≤ 3 then 14/10
  else if years ≤ 4 then 16/10
  else if years ≤ 5 then 18/10
  else 2

/-! ## `backend/search/candidate_scorer.py` (`OptimizedCandidateScorer`) -/

/-- One input result row consumed by `score_and_rank_candidates`.  Optional
fields model Python `dict.get` with its defaults.  `years` is the value of
`_calculate_experience_years(start_date, end_date)`, which the source
computes from the row's dates and which is always `≥ 0` (it returns
`max(years, 0.0)` or `0.0`). -/
structure ScoreRow where
  candidate_id : ℕ
  match_tier : Option String
  elasticsearch_score : Option ℚ
  norm_cos_sim : Option ℚ
  fts_vector_en_rank : Option ℚ
  fts_vector_mn_rank : Option ℚ
  years : ℚ

/-- The `tier_priority_map` dict of `_score_tier_based_results_fixed`,
including the `.get(..., 1000)` default. -/
def tier_priority_map (t : String) : ℚ :=
  if t = "exact" then 1000000
  else if t = "relevant" then 100000
  else if t = "similar" then 10000
  else if t = "semantic_only" then 5000
  else 1000

/-- The tier string `x.get('match_tier', 'unknown')` used for priorities and
`exp_data`. -/
def rowTier (r : ScoreRow) : String := r.match_tier.getD "unknown"

/-- The score `x.get('elasticsearch_score', 0)`. -/
def rowEs (r : ScoreRow) : ℚ := r.elasticsearch_score.getD 0

/-- The tier priority of a row, `tier_priority_map.get(x.get('match_tier',
'unknown'), 1000)`. -/
def rowPriority (r : ScoreRow) : ℚ := tier_priority_map (rowTier r)

/-- Embedding of `_calculate_tier_score_fixed(row, years)`. -/
def calculate_tier_score_fixed (row : ScoreRow) (years : ℚ) : ℚ :=
  let tier := row.match_tier.getD "similar"
  let elasticsearch_score := row.elasticsearch_score.getD 0
  let experience_multiplier := calculate_experience_multiplier years
  if tier = "exact" then
    (100 + elasticsearch_score / 100) * (1 + experience_multiplier * (3/10))
  else if tier = "relevant" then
    (10 + elasticsearch_score / 1000) * (1 + experience_multiplier * (2/10))
  else
    (1 + elasticsearch_score / 10000) * (1 + experience_multiplier * (1/10))

/-- The `exp_data` record built per row in `_score_tier_based_results_fixed`
(the text fields, which no scoring logic reads, are omitted). -/
structure ExperienceResponse where
  years : ℚ
  combined_score : ℚ
  match_tier : String
  elasticsearch_score : ℚ
  tier_priority : ℚ
deriving DecidableEq

/-- Building `exp_data` from a result row (tier-based path). -/
def exp_data_of_row (r : ScoreRow) : ExperienceResponse :=
  { years := r.years
    combined_score := calculate_tier_score_fixed r r.years
    match_tier := rowTier r
    elasticsearch_score := rowEs r
    tier_priority := rowPriority r }

/-- Python's `max(experiences, key=lambda x: x['combined_score'])` applied to
`e :: l`: the first element of maximal `combined_score`. -/
def maxByScore (e : ExperienceResponse) (l : List ExperienceResponse) :
    ExperienceResponse :=
  l.foldl (fun best x => if best.combined_score < x.combined_score then x else best) e

/-- Embedding of `_calculate_candidate_final_score_fixed(experiences)`. -/
def calculate_candidate_final_score_fixed
    (experiences : List ExperienceResponse) : ℚ :=
  match experiences with
  | [] => 0
  | e :: rest =>
    let best := maxByScore e rest
    let boost :=
      if best.match_tier = "exact" then 1000 + best.combined_score
      else best.combined_score
    let additional :=
      ((rest.take 2).map (fun x => x.combined_score * (1/10))).sum
    boost + additional

/-- The candidate response object (identity and scoring fields only; the
contact-detail fields copied verbatim from the rows play no role in any
claim). -/
structure CandidateResponse where
  candidate_id : ℕ
  final_score : ℚ
  experiences : List ExperienceResponse
deriving DecidableEq

/-- The rows of `sorted_results` belonging to one candidate, in order, mapped
to their `exp_data`: this is `candidate_experiences[cid]` after the
aggregation loop of `_score_tier_based_results_fixed` (the loop walks
`sorted_results` and appends each row's `exp_data` to its candidate's
list). -/
def candExps (rows : List ScoreRow) (cid : ℕ) : List ExperienceResponse :=
  ((List.insertionSort (descLex rowPriority rowEs) rows).filter
      (fun r => decide (r.candidate_id = cid))).map exp_data_of_row

/-- The final score `_score_tier_based_results_fixed` computes for candidate
`cid` (computed from all of the candidate's experiences, before threshold
filtering). -/
def candidateScoreOf (rows : List ScoreRow) (cid : ℕ) : ℚ :=
  calculate_candidate_final_score_fixed (candExps rows cid)

/-- One step of the response-building loop: the candidate response for `cid`,
or `none` when no experience clears the threshold. -/
def mkCandidate (rows : List ScoreRow) (score_threshold : ℚ) (cid : ℕ) :
    Option CandidateResponse :=
  let exps := candExps rows cid
  let relevant := exps.filter (fun e => decide (score_threshold < e.combined_score))
  if relevant = [] then none
  else some ⟨cid, candidateScoreOf rows cid, relevant⟩

/-- Embedding of `_score_tier_based_results_fixed(results, score_threshold,
limit)`: sort rows by `(tier priority, elasticsearch score)` descending,
aggregate per candidate in first-seen order, score, filter by threshold,
sort candidates by final score descending and truncate. -/
def score_tier_based_results_fixed (rows : List ScoreRow)
    (score_threshold : ℚ) (limit : ℕ) : List CandidateResponse :=
  let sorted := List.insertionSort (descLex rowPriority rowEs) rows
  let ids := firstSeen (sorted.map (fun r => r.candidate_id))
  let candidates := ids.filterMap (mkCandidate rows score_threshold)
  (List.insertionSort (descBy (fun c => c.final_score)) candidates).take limit

/-- The per-row `combined_score` of the legacy path `_score_legacy_results`
(with the scorer's keyword and semantic weights). -/
def legacyCombinedScore (keyword_weight semantic_weight : ℚ) (r : ScoreRow) : ℚ :=
  let semantic_score := r.norm_cos_sim.getD 0
  match r.elasticsearch_score with
  | some es => keyword_weight * min (es / 10000) 1 + semantic_weight * semantic_score
  | none =>
    let keyword_score :=
      max (r.fts_vector_en_rank.getD 0) (r.fts_vector_mn_rank.getD 0)
    keyword_weight * min (max keyword_score 0) 1 + semantic_weight * semantic_score

/-- Embedding of `_score_legacy_results`: group rows per candidate in input
order, keep experiences above threshold, final score is the sum of
`multiplier × combined_score` over the surviving experiences.  (The legacy
`exp_data` has no tier fields; the unused tier fields are filled with
defaults.) -/
def legacyExps (keyword_weight semantic_weight : ℚ) (rows : List ScoreRow)
    (cid : ℕ) : List ExperienceResponse :=
  (rows.filter (fun r => decide (r.candidate_id = cid))).map
    (fun r =>
      ({ years := r.years
         combined_score := legacyCombinedScore keyword_weight semantic_weight r
         match_tier := ""
         elasticsearch_score := 0
         tier_priority := 0 } : ExperienceResponse))

/-- One step of the legacy response-building loop. -/
def mkLegacyCandidate (keyword_weight semantic_weight : ℚ)
    (rows : List ScoreRow) (score_threshold : ℚ) (cid : ℕ) :
    Option CandidateResponse :=
  let exps := legacyExps keyword_weight semantic_weight rows cid
  let relevant := exps.filter (fun e => decide (score_threshold < e.combined_score))
  let final :=
    (relevant.map
      (fun e => calculate_experience_multiplier e.years * e.combined_score)).sum
  if relevant = [] then none
  else some (⟨cid, final, relevant⟩ : CandidateResponse)

def score_legacy_results (keyword_weight semantic_weight : ℚ)
    (rows : List ScoreRow) (score_threshold : ℚ) (limit : ℕ) :
    List CandidateResponse :=
  let ids := firstSeen (rows.map (fun r => r.candidate_id))
  let candidates :=
    ids.filterMap (mkLegacyCandidate keyword_weight semantic_weight rows score_threshold)
  (List.insertionSort (descBy (fun c => c.final_score)) candidates).take limit

/-- The `has_tiers` probe of `score_and_rank_candidates`: some of the first
five rows has a truthy `match_tier`. -/
def hasTiers (rows : List ScoreRow) : Bool :=
  (rows.take 5).any (fun r =>
    match r.match_tier with
    | some s => decide (¬ s = "")
    | none => false)

/-- Embedding of `score_and_rank_candidates`: dispatch to the tier-based or
legacy scoring path. -/
def score_and_rank_candidates (keyword_weight semantic_weight : ℚ)
    (rows : List ScoreRow) (score_threshold : ℚ) (limit : ℕ) :
    List CandidateResponse :=
  if hasTiers rows then
    score_tier_based_results_fixed rows score_threshold limit
  else
    score_legacy_results keyword_weight semantic_weight rows score_threshold limit

/-! ## `backend/search/elasticsearch_search.py`
(`OptimizedHybridSearch._combine_results_with_tier_weights`) -/

/-- A lexical (Elasticsearch) result fed to fusion.  Optional fields model
`dict.get` with its defaults. -/
structure EsHit where
  id : ℕ
  candidate_id : ℕ
  match_tier : Option String
  elasticsearch_score : Option ℚ
deriving DecidableEq

/-- A semantic (vector-search) result fed to fusion. -/
structure SemHit where
  id : ℕ
  candidate_id : ℕ
  norm_cos_sim : Option ℚ
deriving DecidableEq

/-- The first loop of `_combine_results_with_tier_weights` processes each
experience id once, skipping later duplicates via the `seen_ids` set. -/
def dedupByIdAux (seen_ids : List ℕ) : List EsHit → List EsHit
  | [] => []
  | h :: t =>
    if h.id ∈ seen_ids then dedupByIdAux seen_ids t
    else h :: dedupByIdAux (h.id :: seen_ids) t

/-- Keep the first hit per experience id, in order. -/
def dedupById (l : List EsHit) : List EsHit := dedupByIdAux [] l

/-- The value `semantic_map[id].get('norm_cos_sim', 0)` if `id` is a key of
`semantic_map`, else the initial `0.0`.  The map is built by iterating
`semantic_results`, so on duplicate ids the last entry wins. -/
def semanticScoreOf (sems : List SemHit) (i : ℕ) : ℚ :=
  match sems.reverse.find? (fun s => decide (s.id = i)) with
  | some s => s.norm_cos_sim.getD 0
  | none => 0

/-- A fused result dict as built by `_combine_results_with_tier_weights`.
For lexical entries `match_tier` and `elasticsearch_score` are spread from
the input hit (so they stay absent if absent there); semantic-only entries
set both explicitly. -/
structure FusedResult where
  id : ℕ
  candidate_id : ℕ
  match_tier : Option String
  elasticsearch_score : Option ℚ
  combined_search_score : ℚ
  tier_priority : ℚ
  es_component_score : ℚ
  semantic_component_score : ℚ
  final_score : ℚ
deriving DecidableEq

/-- Fusing one lexical hit: tier-dependent weights over the normalized
lexical score and the semantic score looked up by experience id. -/
def fuseEsHit (sems : List SemHit) (h : EsHit) : FusedResult :=
  let tier := h.match_tier.getD "similar"
  let es_score := min (h.elasticsearch_score.getD 0 / 10000) 1
  let semantic_score := semanticScoreOf sems h.id
  let combined_score :=
    if tier = "exact" then (9/10) * es_score + (1/10) * semantic_score
    else if tier = "relevant" then (5/10) * es_score + (5/10) * semantic_score
    else (1/10) * es_score + (9/10) * semantic_score
  let tier_priority : ℚ :=
    if tier = "exact" then 1000000
    else if tier = "relevant" then 100000
    else 10000
  { id := h.id
    candidate_id := h.candidate_id
    match_tier := h.match_tier
    elasticsearch_score := h.elasticsearch_score
    combined_search_score := combined_score
    tier_priority := tier_priority
    es_component_score := es_score
    semantic_component_score := semantic_score
    final_score := tier_priority + combined_score }

/-- The semantic-only entry added for a semantic result not seen in any
lexical tier. -/
def mkSemOnly (s : SemHit) : FusedResult :=
  let semantic_score := s.norm_cos_sim.getD 0
  { id := s.id
    candidate_id := s.candidate_id
    match_tier := some "semantic_only"
    elasticsearch_score := some 0
    combined_search_score := (9/10) * semantic_score
    tier_priority := 5000
    es_component_score := 0
    semantic_component_score := semantic_score
    final_score := 5000 + (9/10) * semantic_score }

/-- Embedding of `_combine_results_with_tier_weights(es_results,
semantic_results)`: fuse the first hit per lexical id, append a
semantic-only entry for every semantic result whose id was never seen
lexically, then sort by `final_score` (`tier_priority + combined score`)
descending. -/
def combine_results_with_tier_weights (es_results : List EsHit)
    (semantic_results : List SemHit) : List FusedResult :=
  let lexical := (dedupById es_results).map (fuseEsHit semantic_results)
  let semOnly :=
    (semantic_results.filter
        (fun s => decide (¬ s.id ∈ es_results.map (fun h => h.id)))).map mkSemOnly
  List.insertionSort (descBy (fun x => x.final_score)) (lexical ++ semOnly)

/-- The spec's tier ranking (§4.4): `{exact, relevant, similar,
semantic_only, unknown} = {4, 3, 2, 1, 0}`, any other value counting as the
defensive `unknown` fallback.  This is the claims' vocabulary, not a
definition from the source. -/
def tierRank : Option String → ℕ
  | some "exact" => 4
  | some "relevant" => 3
  | some "similar" => 2
  | some "semantic_only" => 1
  | _ => 0

/-- Whether `a` may precede `b` under the spec's lexicographic ordering key
`(tierRank desc, fusedScore desc)`. -/
def lexBefore (a b : FusedResult) : Prop :=
  tierRank b.match_tier < tierRank a.match_tier ∨
    (tierRank b.match_tier = tierRank a.match_tier ∧
      b.combined_search_score ≤ a.combined_search_score)

instance : DecidableRel lexBefore := fun a b => by
  unfold lexBefore; infer_instance

/-- Whether `a` may precede `b` under the key the code actually induces:
`(tier_priority desc, fusedScore desc)`. -/
def prioBefore (a b : FusedResult) : Prop :=
  b.tier_priority < a.tier_priority ∨
    (b.tier_priority = a.tier_priority ∧
      b.combined_search_score ≤ a.combined_search_score)

instance : DecidableRel prioBefore := fun a b => by
  unfold prioBefore; infer_instance

/-- The fused-score formula exactly as the spec's §4.4 words it, for
comparison with `fuseEsHit` (refinement claim C4). -/
def specFusedScore (tier : String) (lexicalScore semantic : ℚ) : ℚ :=
  let lexicalNorm := min (lexicalScore / 10000) 1
  if tier = "exact" then (9/10) * lexicalNorm + (1/10) * semantic
  else if tier = "relevant" then (5/10) * lexicalNorm + (5/10) * semantic
  else (1/10) * lexicalNorm + (9/10) * semantic

/-! ## `backend/search/elasticsearch_service.py`
(`ElasticsearchService.search_with_priority_layers`) -/

/-- A document as returned by one Elasticsearch pass: `esId` is the backend
document id `hit['_id']` (used for in-pass dedup), `id` the experience-id
source field (used for cross-pass exclusion). -/
structure EsDoc where
  esId : ℕ
  id : ℕ
  candidate_id : ℕ
  elasticsearch_score : ℚ
  years_experience : ℚ
deriving DecidableEq

/-- The `seen_ids` loop of `_get_exact_matches_english`, which dedups hits
by their backend `_id`. -/
def dedupByEsIdAux (seen_ids : List ℕ) : List EsDoc → List EsDoc
  | [] => []
  | h :: t =>
    if h.esId ∈ seen_ids then dedupByEsIdAux seen_ids t
    else h :: dedupByEsIdAux (h.esId :: seen_ids) t

/-- Keep the first hit per backend `_id`, in order. -/
def dedupByEsId (l : List EsDoc) : List EsDoc := dedupByEsIdAux [] l

/-- The ranked hit list a backend pass would produce, or a backend error
(anything the Python `except Exception` around `self.es.search` catches,
including hard connectivity failures). -/
abbrev EsResponse := Except Unit (List EsDoc)

/-- Embedding of `_get_exact_matches_english`: on backend error return `[]`;
otherwise dedup hits by `_id` and keep at most 20 (`matches[:20]`). -/
def get_exact_matches_english (resp : EsResponse) : List EsDoc :=
  match resp with
  | .error _ => []
  | .ok hits => (dedupByEsId hits).take 20

/-- Embedding of `_get_relevant_matches`: on backend error return `[]`;
otherwise the backend evaluates the query with its `must_not` exclusion of
`exclude_ids` (no returned document carries an excluded experience id) and
its `size` bound — modelled by filtering the pass's ranked match list and
truncating. -/
def get_relevant_matches (resp : EsResponse) (limit : ℕ) (exclude_ids : List ℕ) :
    List EsDoc :=
  match resp with
  | .error _ => []
  | .ok hits => (hits.filter (fun d => decide (¬ d.id ∈ exclude_ids))).take limit

/-- Embedding of `_get_similar_matches` (same `must_not`/`size` shape as the
relevant pass). -/
def get_similar_matches (resp : EsResponse) (limit : ℕ) (exclude_ids : List ℕ) :
    List EsDoc :=
  match resp with
  | .error _ => []
  | .ok hits => (hits.filter (fun d => decide (¬ d.id ∈ exclude_ids))).take limit

/-- A pass result tagged with its tier, as mutated into each dict by
`search_with_priority_layers`. -/
structure TaggedDoc where
  esId : ℕ
  id : ℕ
  candidate_id : ℕ
  elasticsearch_score : ℚ
  years_experience : ℚ
  match_tier : String
  tier_priority : ℚ
deriving DecidableEq

/-- Tag one pass document with its tier name and priority. -/
def tagDoc (tier : String) (priority : ℚ) (d : EsDoc) : TaggedDoc :=
  { esId := d.esId
    id := d.id
    candidate_id := d.candidate_id
    elasticsearch_score := d.elasticsearch_score
    years_experience := d.years_experience
    match_tier := tier
    tier_priority := priority }

/-- Modelled from the spec: the spec's failure taxonomy names an
`IndexUnavailable` error said to be raised when the first lexical pass
cannot reach the backend.  No such error type or raise site exists anywhere
in the source; it is introduced here only so that the claimed failure mode
can be stated and compared with the code's actual behaviour. -/
inductive SearchError where
  | indexUnavailable
deriving DecidableEq

/-- The Tier-2 contribution of `search_with_priority_layers`: runs only if
the exact pass left room, excluding all exact ids. -/
def swpl_relevant (exact_results : List EsDoc) (relevantResp : EsResponse)
    (limit : ℕ) : List EsDoc :=
  if exact_results.length < limit then
    get_relevant_matches relevantResp (limit - exact_results.length)
      (exact_results.map (fun r => r.id))
  else []

/-- The Tier-3 contribution of `search_with_priority_layers`: runs only if
room remains, excluding both earlier tiers' ids. -/
def swpl_similar (exact_results relevant_results : List EsDoc)
    (similarResp : EsResponse) (limit : ℕ) : List EsDoc :=
  if exact_results.length + relevant_results.length < limit then
    get_similar_matches similarResp
      (limit - (exact_results.length + relevant_results.length))
      ((exact_results ++ relevant_results).map (fun r => r.id))
  else []

/-- The tagged, merged (not yet re-sorted) result list of
`search_with_priority_layers`. -/
def swpl_all_results (exactResp relevantResp similarResp : EsResponse)
    (limit : ℕ) : List TaggedDoc :=
  let exact_results := get_exact_matches_english exactResp
  let relevant_results := swpl_relevant exact_results relevantResp limit
  let similar_results := swpl_similar exact_results relevant_results similarResp limit
  exact_results.map (tagDoc "exact" 1000000) ++
    relevant_results.map (tagDoc "relevant" 100000) ++
    similar_results.map (tagDoc "similar" 10000)

/-- Embedding of `search_with_priority_layers(query, limit)`, parametrised by
the three backend pass responses for this query (the query-string
processing and translation only choose which responses the backend
produces, so they are absorbed into the response parameters).  The exact
pass runs first; the relevant pass runs only if the exact pass left room,
excluding the exact ids; the similar pass runs only if room remains,
excluding both earlier tiers' ids; results are tagged, sorted by
`(tier_priority, elasticsearch score)` descending and truncated.  Every
backend exception is caught inside its pass (yielding `[]`), so the
function always returns `.ok`. -/
def search_with_priority_layers (exactResp relevantResp similarResp : EsResponse)
    (limit : ℕ) : Except SearchError (List TaggedDoc) :=
  Except.ok ((List.insertionSort
      (descLex (fun d => d.tier_priority) (fun d => d.elasticsearch_score))
      (swpl_all_results exactResp relevantResp similarResp limit)).take limit)

/-! ## `backend/search/query_processor.py` and the `/search` endpoint of
`backend/main.py` -/

/-- Embedding of `QueryProcessor.create_structured_text`. -/
def create_structured_text (position description : String) : String :=
  if position = "" ∧ description = "" then ""
  else
    String.intercalate "\n"
      ((if position = "" then [] else ["Position: " ++ position]) ++
        (if description = "" then [] else ["Description: " ++ description]))

/-- The tuple returned by `QueryProcessor.process_query`. -/
structure QueryOutput where
  combined_query : String
  structured_mn : String
  structured_en : String
  query_embedding : Option (List ℚ)

/-- Python's `str.strip()`: remove leading and trailing whitespace.  (Defined
over the character list rather than with `String.trim`, whose byte-position
loops are not kernel-computable; the two agree on ASCII whitespace.) -/
def pyStrip (s : String) : String :=
  ⟨((s.data.dropWhile Char.isWhitespace).reverse.dropWhile Char.isWhitespace).reverse⟩

/-- Embedding of `QueryProcessor.process_query`.  Both inputs are stripped;
if both are then empty the function returns `("", "", "", None)` at once,
calling neither the translator nor the embedding generator.  The non-empty
branch (translation, structuring, key-term extraction, embedding) is
abstracted as the parameter `processNonEmpty`, applied to the stripped
inputs: the claims settled here only exercise the empty path, and every
theorem quantifies over `processNonEmpty`, so it holds in particular for
the concrete branch. -/
def process_query (processNonEmpty : String → String → QueryOutput)
    (position_mn description_mn : String) : QueryOutput :=
  let position := pyStrip position_mn
  let description := pyStrip description_mn
  if position = "" ∧ description = "" then ⟨"", "", "", none⟩
  else processNonEmpty position description

/-- Outcome of the `/search` endpoint: `emptyQuery` models
`HTTPException(400, "Invalid or empty search query")`. -/
inductive SearchOutcome where
  | emptyQuery
  | results (candidates : List CandidateResponse)
deriving DecidableEq

/-- Embedding of the `/search` endpoint `search_candidates` of
`backend/main.py`, instrumented with the number of retrieval calls (lexical
or semantic) performed: `process_query` is run; if both `combined_query`
and `structured_en` are falsy the endpoint raises the 400 error before any
retrieval; otherwise exactly one retrieval call is issued (whichever of
`hybrid_search.search` / `db.search_experiences` the method dispatch picks,
abstracted as `retrieve`) and its rows are scored.  The second component of
the result counts the retrieval calls made. -/
def search_candidates (processNonEmpty : String → String → QueryOutput)
    (retrieve : String → List ScoreRow) (keyword_weight semantic_weight : ℚ)
    (position description : String) (score_threshold : ℚ) (limit : ℕ) :
    SearchOutcome × ℕ :=
  let q := process_query processNonEmpty position description
  if q.combined_query = "" ∧ q.structured_en = "" then
    (SearchOutcome.emptyQuery, 0)
  else
    (SearchOutcome.results
      (score_and_rank_candidates keyword_weight semantic_weight
        (retrieve q.combined_query) score_threshold limit), 1)

/-! ## Claim-side reference definitions -/

/-- Claim C5's candidate formula, following its words: final score is the
best experience score, plus 1000 exactly when the best experience is
exact-tier, plus 0.1 times the sum of the two largest per-experience scores
other than the best one (the next two highest scores).  `none` when the
candidate has no experiences. -/
def claimFinalScoreC5 (exps : List ExperienceResponse) : Option ℚ :=
  match exps with
  | [] => none
  | e :: rest =>
    let best := maxByScore e rest
    let boost :=
      if best.match_tier = "exact" then 1000 + best.combined_score
      else best.combined_score
    let sortedScores :=
      List.insertionSort (descBy (fun q : ℚ => q))
        (exps.map (fun x => x.combined_score))
    some (boost + (((sortedScores.drop 1).take 2).map (fun s => s * (1/10))).sum)

/-! ## Concrete inputs used by counterexamples and witnesses -/

/-- An exact-tier row with elasticsearch score 0 (its tier score is 130). -/
def exactRow0 : ScoreRow := ⟨1, some "exact", some 0, none, none, none, 0⟩

/-- A relevant-tier row for candidate 2 with a huge elasticsearch score of
10^7 (its tier score is 12012). -/
def hugeRelevantRow : ScoreRow := ⟨2, some "relevant", some 10000000, none, none, none, 0⟩

/-- A relevant-tier row with elasticsearch score 10^6 (tier score 1212). -/
def bigRelevantRow : ScoreRow := ⟨1, some "relevant", some 1000000, none, none, none, 0⟩

/-- Candidate 1, exact tier, score 10000, 0 years: tier score 260. -/
def c5row1 : ScoreRow := ⟨1, some "exact", some 10000, none, none, none, 0⟩

/-- Candidate 1, exact tier, score 9000, 10 years: tier score 304. -/
def c5row2 : ScoreRow := ⟨1, some "exact", some 9000, none, none, none, 10⟩

/-- Candidate 1, exact tier, score 0, 10 years: tier score 160. -/
def c5row3 : ScoreRow := ⟨1, some "exact", some 0, none, none, none, 10⟩

/-- A lexical hit whose `match_tier` is the defensive `'unknown'` value. -/
def unknownEsHit : EsHit := ⟨1, 1, some "unknown", some 5000⟩

/-- A semantic hit (similarity 0.9) for an experience with no lexical hit. -/
def strongSemHit : SemHit := ⟨2, 2, some (9/10)⟩

/-- An exact-tier lexical hit for fusion examples. -/
def exactEsHit : EsHit := ⟨10, 1, some "exact", some 5000⟩

/-- A semantic hit matching `exactEsHit`'s experience id. -/
def pairedSemHit : SemHit := ⟨10, 1, some (1/2)⟩

/-- A backend document for the retrieval-layer examples. -/
def sampleDoc : EsDoc := ⟨1, 1, 1, 500, 2⟩

/-- A second backend document, sharing `sampleDoc`'s experience id. -/
def sampleDoc2 : EsDoc := ⟨2, 1, 2, 300, 1⟩

/-- Rows for the C6/C10 witnesses: two candidates, tiered. -/
def witnessRows : List ScoreRow :=
  [⟨1, some "exact", some 100, none, none, none, 1⟩,
   ⟨2, some "relevant", some 200, none, none, none, 3⟩,
   ⟨1, some "similar", some 50, none, none, none, 2⟩]

/-- A similar-tier row for candidate 1 (tier score 11/10). -/
def similarRow1 : ScoreRow := ⟨1, some "similar", some 0, none, none, none, 0⟩

/-! ## Helper lemmas: experience multiplier and tier-score bands -/

lemma one_le_multiplier (y : ℚ) : 1 ≤ calculate_experience_multiplier y := by
  unfold calculate_experience_multiplier
  split_ifs <;> norm_num

lemma multiplier_le_two (y : ℚ) : calculate_experience_multiplier y ≤ 2 := by
  unfold calculate_experience_multiplier
  split_ifs <;> norm_num

/-- An exact-tier row's experience score is at least 130 whenever its
elasticsearch score is nonnegative. -/
lemma tier_score_exact_lb (r : ScoreRow) (y : ℚ)
    (ht : r.match_tier = some "exact")
    (hes : 0 ≤ r.elasticsearch_score.getD 0) :
    130 ≤ calculate_tier_score_fixed r y := by
  simp only [calculate_tier_score_fixed, ht, Option.getD_some]
  split_ifs <;> first
    | nlinarith [one_le_multiplier y, hes]
    | simp_all

/-- A non-exact row's experience score is at most 28 whenever its
elasticsearch score is at most 10000 and nonnegative. -/
lemma tier_score_nonexact_ub (r : ScoreRow) (y : ℚ)
    (ht : ¬ r.match_tier = some "exact")
    (hes : 0 ≤ r.elasticsearch_score.getD 0)
    (hes' : r.elasticsearch_score.getD 0 ≤ 10000) :
    calculate_tier_score_fixed r y ≤ 28 := by
  have htier : ¬ r.match_tier.getD "similar" = "exact" := by
    cases hmt : r.match_tier with
    | none => simp
    | some s =>
      simp only [Option.getD_some]
      intro hs
      exact ht (by rw [hmt, hs])
  simp only [calculate_tier_score_fixed]
  have hm1 := one_le_multiplier y
  have hm2 := multiplier_le_two y
  split_ifs <;> first
    | nlinarith [hm1, hm2, hes, hes']
    | simp_all

/-- Every experience score is nonnegative whenever the row's elasticsearch
score is. -/
lemma tier_score_nonneg (r : ScoreRow) (y : ℚ)
    (hes : 0 ≤ r.elasticsearch_score.getD 0) :
    0 ≤ calculate_tier_score_fixed r y := by
  simp only [calculate_tier_score_fixed]
  have hm1 := one_le_multiplier y
  have hm2 := multiplier_le_two y
  split_ifs <;> nlinarith [hm1, hm2, hes]

/-- An exact-tier row's experience score is at most 320 whenever its
elasticsearch score is in [0, 10000]. -/
lemma tier_score_exact_ub (r : ScoreRow) (y : ℚ)
    (ht : r.match_tier = some "exact")
    (hes : 0 ≤ r.elasticsearch_score.getD 0)
    (hes' : r.elasticsearch_score.getD 0 ≤ 10000) :
    calculate_tier_score_fixed r y ≤ 320 := by
  simp only [calculate_tier_score_fixed, ht, Option.getD_some]
  have hm1 := one_le_multiplier y
  have hm2 := multiplier_le_two y
  split_ifs <;> first
    | nlinarith [hm1, hm2, hes, hes']
    | simp_all

/-- A relevant-tier row's experience score is at least 12 whenever its
elasticsearch score is nonnegative. -/
lemma tier_score_relevant_lb (r : ScoreRow) (y : ℚ)
    (ht : r.match_tier = some "relevant")
    (hes : 0 ≤ r.elasticsearch_score.getD 0) :
    12 ≤ calculate_tier_score_fixed r y := by
  simp only [calculate_tier_score_fixed, ht, Option.getD_some]
  split_ifs <;> first
    | nlinarith [one_le_multiplier y, hes]
    | simp_all

/-- A row that is neither exact- nor relevant-tier has experience score at
most 12/5 whenever its elasticsearch score is in [0, 10000]. -/
lemma tier_score_other_ub (r : ScoreRow) (y : ℚ)
    (ht : ¬ r.match_tier = some "exact")
    (ht' : ¬ r.match_tier = some "relevant")
    (hes : 0 ≤ r.elasticsearch_score.getD 0)
    (hes' : r.elasticsearch_score.getD 0 ≤ 10000) :
    calculate_tier_score_fixed r y ≤ 12/5 := by
  have htier : ¬ r.match_tier.getD "similar" = "exact" := by
    cases hmt : r.match_tier with
    | none => simp
    | some s => simp only [Option.getD_some]; intro hs; exact ht (by rw [hmt, hs])
  have htier' : ¬ r.match_tier.getD "similar" = "relevant" := by
    cases hmt : r.match_tier with
    | none => simp
    | some s => simp only [Option.getD_some]; intro hs; exact ht' (by rw [hmt, hs])
  simp only [calculate_tier_score_fixed]
  have hm1 := one_le_multiplier y
  have hm2 := multiplier_le_two y
  split_ifs <;> first
    | nlinarith [hm1, hm2, hes, hes']
    | simp_all

/-! ## Helper lemmas: Python `max(..., key=...)` -/

lemma maxByScore_mem (e : ExperienceResponse) (l : List ExperienceResponse) :
    maxByScore e l ∈ e :: l := by
  induction l generalizing e with
  | nil => simp [maxByScore]
  | cons a t ih =>
    have step : maxByScore e (a :: t) =
        maxByScore (if e.combined_score < a.combined_score then a else e) t := rfl
    rw [step]
    by_cases hc : e.combined_score < a.combined_score
    · rw [if_pos hc]
      exact List.mem_cons_of_mem _ (ih a)
    · rw [if_neg hc]
      rcases List.mem_cons.mp (ih e) with h | h
      · rw [h]; exact List.mem_cons_self _ _
      · exact List.mem_cons_of_mem _ (List.mem_cons_of_mem _ h)

lemma le_maxByScore_seed (e : ExperienceResponse) (l : List ExperienceResponse) :
    e.combined_score ≤ (maxByScore e l).combined_score := by
  induction l generalizing e with
  | nil => exact le_refl _
  | cons a t ih =>
    have step : maxByScore e (a :: t) =
        maxByScore (if e.combined_score < a.combined_score then a else e) t := rfl
    rw [step]
    by_cases hc : e.combined_score < a.combined_score
    · rw [if_pos hc]; exact le_trans (le_of_lt hc) (ih a)
    · rw [if_neg hc]; exact ih e

lemma le_maxByScore_of_mem (l : List ExperienceResponse) :
    ∀ (e : ExperienceResponse), ∀ x ∈ l,
      x.combined_score ≤ (maxByScore e l).combined_score := by
  induction l with
  | nil => intro e x hx; simp at hx
  | cons a t ih =>
    intro e x hx
    have step : maxByScore e (a :: t) =
        maxByScore (if e.combined_score < a.combined_score then a else e) t := rfl
    rw [step]
    rcases List.mem_cons.mp hx with rfl | hx'
    · refine le_trans ?_ (le_maxByScore_seed _ t)
      by_cases hc : e.combined_score < x.combined_score
      · rw [if_pos hc]
      · rw [if_neg hc]; exact le_of_not_lt hc
    · exact ih _ x hx'

lemma le_maxByScore (e : ExperienceResponse) (l : List ExperienceResponse) :
    ∀ x ∈ e :: l, x.combined_score ≤ (maxByScore e l).combined_score := by
  intro x hx
  rcases List.mem_cons.mp hx with rfl | hx'
  · exact le_maxByScore_seed _ _
  · exact le_maxByScore_of_mem l e x hx'

/-! ## Helper lemmas: membership in a candidate's experience list -/

lemma of_mem_candExps {rows : List ScoreRow} {cid : ℕ} {x : ExperienceResponse}
    (hx : x ∈ candExps rows cid) :
    ∃ r ∈ rows, r.candidate_id = cid ∧ x = exp_data_of_row r := by
  unfold candExps at hx
  obtain ⟨r, hr, rfl⟩ := List.mem_map.mp hx
  have hr' := List.mem_filter.mp hr
  refine ⟨r, ?_, ?_, rfl⟩
  · exact (List.perm_insertionSort _ rows).mem_iff.mp hr'.1
  · exact of_decide_eq_true hr'.2

lemma mem_candExps_of_mem {rows : List ScoreRow} {r : ScoreRow}
    (hr : r ∈ rows) (cid : ℕ) (hcid : r.candidate_id = cid) :
    exp_data_of_row r ∈ candExps rows cid := by
  unfold candExps
  refine List.mem_map_of_mem _ (List.mem_filter.mpr ⟨?_, ?_⟩)
  · exact (List.perm_insertionSort _ rows).mem_iff.mpr hr
  · exact decide_eq_true hcid

/-- The `exp_data` tier is `"exact"` exactly when the row's `match_tier` is
`'exact'`. -/
lemma exp_tier_exact_iff (r : ScoreRow) :
    (exp_data_of_row r).match_tier = "exact" ↔ r.match_tier = some "exact" := by
  cases hmt : r.match_tier <;>
    simp [exp_data_of_row, rowTier, hmt]

/-! ## Helper lemmas: membership in the scored output -/

/-- Every candidate response in the tier-based output carries the
threshold-independent final score of its candidate id, and its candidate
has a nonempty experience list. -/
lemma mem_tier_output {rows : List ScoreRow} {thr : ℚ} {lim : ℕ}
    {c : CandidateResponse}
    (hc : c ∈ score_tier_based_results_fixed rows thr lim) :
    c.final_score = candidateScoreOf rows c.candidate_id ∧
      candExps rows c.candidate_id ≠ [] := by
  unfold score_tier_based_results_fixed at hc
  have hc1 := List.mem_of_mem_take hc
  have hc2 := (List.perm_insertionSort _ _).mem_iff.mp hc1
  obtain ⟨cid, _hcid, hmk⟩ := List.mem_filterMap.mp hc2
  unfold mkCandidate at hmk
  by_cases hrel :
      (candExps rows cid).filter (fun e => decide (thr < e.combined_score)) = []
  · rw [if_pos hrel] at hmk
    exact absurd hmk (by simp)
  · rw [if_neg hrel] at hmk
    have hc3 := Option.some.inj hmk
    subst hc3
    refine ⟨rfl, ?_⟩
    intro hnil
    exact hrel (by rw [hnil]; rfl)

/-! ## Helper lemmas: list counting and sums -/

lemma length_filterMap_mono {α β : Type} (l : List α) (f g : α → Option β)
    (h : ∀ x ∈ l, (f x).isSome → (g x).isSome) :
    (l.filterMap f).length ≤ (l.filterMap g).length := by
  induction l with
  | nil => simp
  | cons a t ih =>
    have ht := ih (fun x hx => h x (List.mem_cons_of_mem _ hx))
    have ha := h a (List.mem_cons_self _ _)
    cases hfa : f a with
    | none =>
      cases hga : g a with
      | none => simpa [List.filterMap_cons, hfa, hga] using ht
      | some b =>
        simp only [List.filterMap_cons, hfa, hga, List.length_cons]
        exact le_trans ht (Nat.le_succ _)
    | some b =>
      cases hga : g a with
      | none =>
        exfalso
        have hga' : (g a).isSome := ha (by simp [hfa])
        rw [hga] at hga'
        simp at hga'
      | some b' => simpa [List.filterMap_cons, hfa, hga] using ht

lemma list_sum_le_two_mul {l : List ℚ} {c : ℚ} (hc : 0 ≤ c)
    (hlen : l.length ≤ 2) (h : ∀ x ∈ l, x ≤ c) : l.sum ≤ 2 * c := by
  match l, hlen with
  | [], _ =>
    simp only [List.sum_nil]
    linarith
  | [a], _ =>
    have := h a (by simp)
    simp only [List.sum_cons, List.sum_nil, add_zero]
    linarith
  | [a, b], _ =>
    have ha := h a (by simp)
    have hb := h b (by simp)
    simp only [List.sum_cons, List.sum_nil, add_zero]
    linarith

lemma list_sum_nonneg_of_mem {l : List ℚ} (h : ∀ x ∈ l, 0 ≤ x) : 0 ≤ l.sum :=
  List.sum_nonneg h

/-- Unfolding of the candidate final score on a nonempty experience list. -/
lemma final_score_cons (e : ExperienceResponse) (rest : List ExperienceResponse) :
    calculate_candidate_final_score_fixed (e :: rest) =
      (if (maxByScore e rest).match_tier = "exact"
        then 1000 + (maxByScore e rest).combined_score
        else (maxByScore e rest).combined_score) +
      ((rest.take 2).map (fun x => x.combined_score * (1/10))).sum := rfl

lemma exp_score_eq (r : ScoreRow) :
    (exp_data_of_row r).combined_score = calculate_tier_score_fixed r r.years := rfl

/-- Threshold monotonicity of the per-candidate response builder. -/
lemma mkCandidate_isSome_mono (rows : List ScoreRow) {t1 t2 : ℚ} (h : t1 ≤ t2)
    (cid : ℕ) (hs : (mkCandidate rows t2 cid).isSome) :
    (mkCandidate rows t1 cid).isSome := by
  unfold mkCandidate at *
  by_cases h2 :
      (candExps rows cid).filter (fun e => decide (t2 < e.combined_score)) = []
  · rw [if_pos h2] at hs
    simp at hs
  · rw [if_neg h2] at hs
    have h1 :
        ¬ (candExps rows cid).filter (fun e => decide (t1 < e.combined_score)) = [] := by
      intro hnil
      apply h2
      rw [List.filter_eq_nil_iff] at hnil ⊢
      intro a ha hdec
      have ht2 : t2 < a.combined_score := of_decide_eq_true hdec
      exact hnil a ha (decide_eq_true (lt_of_le_of_lt h ht2))
    rw [if_neg h1]
    simp

/-- Threshold monotonicity of the legacy per-candidate response builder. -/
lemma mkLegacyCandidate_isSome_mono (kw sw : ℚ) (rows : List ScoreRow)
    {t1 t2 : ℚ} (h : t1 ≤ t2) (cid : ℕ)
    (hs : (mkLegacyCandidate kw sw rows t2 cid).isSome) :
    (mkLegacyCandidate kw sw rows t1 cid).isSome := by
  unfold mkLegacyCandidate at *
  by_cases h2 :
      (legacyExps kw sw rows cid).filter (fun e => decide (t2 < e.combined_score)) = []
  · rw [if_pos h2] at hs
    simp at hs
  · rw [if_neg h2] at hs
    have h1 :
        ¬ (legacyExps kw sw rows cid).filter
            (fun e => decide (t1 < e.combined_score)) = [] := by
      intro hnil
      apply h2
      rw [List.filter_eq_nil_iff] at hnil ⊢
      intro a ha hdec
      have ht2 : t2 < a.combined_score := of_decide_eq_true hdec
      exact hnil a ha (decide_eq_true (lt_of_le_of_lt h ht2))
    rw [if_neg h1]
    simp

/-- Raising the threshold cannot increase the tier-based candidate count. -/
lemma tier_count_mono (rows : List ScoreRow) (lim : ℕ) {t1 t2 : ℚ}
    (h : t1 ≤ t2) :
    (score_tier_based_results_fixed rows t2 lim).length ≤
      (score_tier_based_results_fixed rows t1 lim).length := by
  unfold score_tier_based_results_fixed
  rw [List.length_take, List.length_take,
    (List.perm_insertionSort _ _).length_eq, (List.perm_insertionSort _ _).length_eq]
  exact min_le_min (le_refl lim)
    (length_filterMap_mono _ _ _ (fun cid _ => mkCandidate_isSome_mono rows h cid))

/-- Raising the threshold cannot increase the legacy candidate count. -/
lemma legacy_count_mono (kw sw : ℚ) (rows : List ScoreRow) (lim : ℕ) {t1 t2 : ℚ}
    (h : t1 ≤ t2) :
    (score_legacy_results kw sw rows t2 lim).length ≤
      (score_legacy_results kw sw rows t1 lim).length := by
  unfold score_legacy_results
  rw [List.length_take, List.length_take,
    (List.perm_insertionSort _ _).length_eq, (List.perm_insertionSort _ _).length_eq]
  exact min_le_min (le_refl lim)
    (length_filterMap_mono _ _ _
      (fun cid _ => mkLegacyCandidate_isSome_mono kw sw rows h cid))

/-! ## Helper lemmas: fusion -/

lemma fused_final_eq (sems : List SemHit) (h : EsHit) :
    (fuseEsHit sems h).final_score =
      (fuseEsHit sems h).tier_priority + (fuseEsHit sems h).combined_search_score := rfl

lemma semOnly_final_eq (s : SemHit) :
    (mkSemOnly s).final_score =
      (mkSemOnly s).tier_priority + (mkSemOnly s).combined_search_score := rfl

lemma fused_priority_cases (sems : List SemHit) (h : EsHit) :
    (fuseEsHit sems h).tier_priority = 1000000 ∨
      (fuseEsHit sems h).tier_priority = 100000 ∨
      (fuseEsHit sems h).tier_priority = 10000 := by
  simp only [fuseEsHit]
  split_ifs <;> simp

lemma semOnly_priority (s : SemHit) : (mkSemOnly s).tier_priority = 5000 := rfl

/-- Decomposition of membership in the fused output. -/
lemma mem_combine_iff {es : List EsHit} {sems : List SemHit} {x : FusedResult} :
    x ∈ combine_results_with_tier_weights es sems ↔
      x ∈ (dedupById es).map (fuseEsHit sems) ++
        (sems.filter
          (fun s => decide (¬ s.id ∈ es.map (fun h => h.id)))).map mkSemOnly := by
  unfold combine_results_with_tier_weights
  exact (List.perm_insertionSort _ _).mem_iff

/-- Every fused output element satisfies the single-key decomposition
`final = tier_priority + combined` with a priority from the four bands. -/
lemma combine_elem_facts {es : List EsHit} {sems : List SemHit} {x : FusedResult}
    (hx : x ∈ combine_results_with_tier_weights es sems) :
    x.final_score = x.tier_priority + x.combined_search_score ∧
      (x.tier_priority = 1000000 ∨ x.tier_priority = 100000 ∨
        x.tier_priority = 10000 ∨ x.tier_priority = 5000) := by
  rcases List.mem_append.mp (mem_combine_iff.mp hx) with h | h
  · obtain ⟨h0, _, rfl⟩ := List.mem_map.mp h
    refine ⟨fused_final_eq sems h0, ?_⟩
    rcases fused_priority_cases sems h0 with h | h | h
    · exact Or.inl h
    · exact Or.inr (Or.inl h)
    · exact Or.inr (Or.inr (Or.inl h))
  · obtain ⟨s, _, rfl⟩ := List.mem_map.mp h
    exact ⟨semOnly_final_eq s, Or.inr (Or.inr (Or.inr (semOnly_priority s)))⟩

/-! ## Claim C3 -/

unseal Rat.mul Rat.add Rat.sub Rat.inv in
/-- C3, as stated, is false: a lexical hit whose tier is the defensive
`'unknown'` value is fused with the similar band priority 10000 (the code's
fusion has no 1000 band at all), so it precedes every `semantic_only` entry
(priority 5000) even though the claimed tier ranking puts `unknown` (rank
0) below `semantic_only` (rank 1).  Here all fused scores lie in [0, 1],
yet the output is not sorted by the claimed lexicographic key. -/
theorem C3_counterexample :
    (∀ x ∈ combine_results_with_tier_weights [unknownEsHit] [strongSemHit],
      0 ≤ x.combined_search_score ∧ x.combined_search_score ≤ 1) ∧
    ¬ List.Pairwise lexBefore
        (combine_results_with_tier_weights [unknownEsHit] [strongSemHit]) := by
  decide

/-- C3 (amended): the fused list is totally preordered by the lexicographic
key (tierPriority descending, fusedScore descending), where the code's
priorities are 1000000/100000/10000/5000 for exact / relevant / any other
lexical tier (including `similar` and `unknown`) / injected semantic-only
entries — there is no separate 1000 band, and `unknown`-tier lexical hits
share the similar band instead of ranking below `semantic_only`.  This
holds for every input whose fused scores lie in [0, 1]. -/
theorem C3_amended (es : List EsHit) (sems : List SemHit)
    (h : ∀ x ∈ combine_results_with_tier_weights es sems,
      0 ≤ x.combined_search_score ∧ x.combined_search_score ≤ 1) :
    List.Pairwise prioBefore (combine_results_with_tier_weights es sems) ∧
      ∀ x ∈ combine_results_with_tier_weights es sems,
        x.tier_priority = 1000000 ∨ x.tier_priority = 100000 ∨
          x.tier_priority = 10000 ∨ x.tier_priority = 5000 := by
  constructor
  · have hsorted : List.Sorted (descBy (fun x : FusedResult => x.final_score))
        (combine_results_with_tier_weights es sems) := by
      unfold combine_results_with_tier_weights
      exact List.sorted_insertionSort _ _
    refine List.Pairwise.imp_of_mem ?_ hsorted
    intro a b hma hmb hab
    obtain ⟨hfa, hpa⟩ := combine_elem_facts hma
    obtain ⟨hfb, hpb⟩ := combine_elem_facts hmb
    obtain ⟨hca0, hca1⟩ := h a hma
    obtain ⟨hcb0, hcb1⟩ := h b hmb
    unfold descBy at hab
    unfold prioBefore
    by_cases hlt : b.tier_priority < a.tier_priority
    · exact Or.inl hlt
    · by_cases heq : b.tier_priority = a.tier_priority
      · exact Or.inr ⟨heq, by linarith⟩
      · exfalso
        have hgap : a.tier_priority + 1 < b.tier_priority := by
          rcases hpa with ha | ha | ha | ha <;> rcases hpb with hb | hb | hb | hb <;>
            rw [ha, hb] at hlt heq ⊢ <;> norm_num at hlt heq ⊢
        linarith
  · intro x hx
    exact (combine_elem_facts hx).2

unseal Rat.mul Rat.add Rat.sub Rat.inv in
/-- C3 amended witness: on the counterexample input the output is sorted by
the code's (tierPriority, fusedScore) key and uses only the four priority
bands. -/
theorem C3_amended_witness :
    List.Pairwise prioBefore
        (combine_results_with_tier_weights [unknownEsHit] [strongSemHit]) ∧
      ∀ x ∈ combine_results_with_tier_weights [unknownEsHit] [strongSemHit],
        x.tier_priority = 1000000 ∨ x.tier_priority = 100000 ∨
          x.tier_priority = 10000 ∨ x.tier_priority = 5000 :=
  C3_amended [unknownEsHit] [strongSemHit] (by decide)

/-! ## Claim C4 -/

/-- C4: every lexical hit processed by fusion (the first occurrence of its
experience id) appears in the output with fused score equal to the spec's
tier-weighted formula — weights (0.9, 0.1) for `exact`, (0.5, 0.5) for
`relevant`, (0.1, 0.9) for any other tier, over the normalized lexical
score `min(score/10000, 1)` and the semantic score (0 when the id has no
semantic match); and every semantic result whose experience id appears in
no lexical hit is added to the output as tier `semantic_only` with fused
score `0.9 × semantic`. -/
theorem C4_fused_formula (es : List EsHit) (sems : List SemHit) :
    (∀ h ∈ dedupById es,
      fuseEsHit sems h ∈ combine_results_with_tier_weights es sems ∧
      (fuseEsHit sems h).combined_search_score =
        specFusedScore (h.match_tier.getD "similar") (h.elasticsearch_score.getD 0)
          (semanticScoreOf sems h.id)) ∧
    (∀ s ∈ sems, ¬ s.id ∈ es.map (fun h => h.id) →
      mkSemOnly s ∈ combine_results_with_tier_weights es sems ∧
      (mkSemOnly s).match_tier = some "semantic_only" ∧
      (mkSemOnly s).combined_search_score = (9/10) * s.norm_cos_sim.getD 0) := by
  constructor
  · intro h hh
    constructor
    · apply mem_combine_iff.mpr
      exact List.mem_append_left _ (List.mem_map_of_mem _ hh)
    · rfl
  · intro s hs hns
    refine ⟨?_, rfl, rfl⟩
    apply mem_combine_iff.mpr
    apply List.mem_append_right
    exact List.mem_map_of_mem _ (List.mem_filter.mpr ⟨hs, decide_eq_true hns⟩)

unseal Rat.mul Rat.add Rat.sub Rat.inv in
/-- C4 witness: both parts instantiated on one exact lexical hit (id 10,
with a paired semantic hit) and one unseen semantic hit (id 2). -/
theorem C4_witness :
    (fuseEsHit [pairedSemHit, strongSemHit] exactEsHit ∈
        combine_results_with_tier_weights [exactEsHit] [pairedSemHit, strongSemHit] ∧
      (fuseEsHit [pairedSemHit, strongSemHit] exactEsHit).combined_search_score =
        specFusedScore (exactEsHit.match_tier.getD "similar")
          (exactEsHit.elasticsearch_score.getD 0)
          (semanticScoreOf [pairedSemHit, strongSemHit] exactEsHit.id)) ∧
    (mkSemOnly strongSemHit ∈
        combine_results_with_tier_weights [exactEsHit] [pairedSemHit, strongSemHit] ∧
      (mkSemOnly strongSemHit).match_tier = some "semantic_only" ∧
      (mkSemOnly strongSemHit).combined_search_score =
        (9/10) * strongSemHit.norm_cos_sim.getD 0) :=
  ⟨(C4_fused_formula [exactEsHit] [pairedSemHit, strongSemHit]).1 exactEsHit (by decide),
   (C4_fused_formula [exactEsHit] [pairedSemHit, strongSemHit]).2 strongSemHit
     (by decide) (by decide)⟩

/-! ## Claim C1 -/

unseal Rat.mul Rat.add Rat.sub Rat.inv in
/-- C1, as stated, is false: with unconstrained elasticsearch scores a
relevant-tier experience can out-score every exact-tier experience.  Here
candidate 1 has an exact-tier experience (final score 1130) while candidate
2's only experience is relevant-tier with elasticsearch score 10^7 (final
score 12012), so the exact-match candidate does NOT have the strictly
greater final score. -/
theorem C1_counterexample :
    (score_tier_based_results_fixed [exactRow0, hugeRelevantRow] 0 10).map
        (fun c => (c.candidate_id, c.final_score)) = [(2, 12012), (1, 1130)] ∧
    ¬ candidateScoreOf [exactRow0, hugeRelevantRow] 2 <
        candidateScoreOf [exactRow0, hugeRelevantRow] 1 := by
  decide

/-- C1 (amended): for elasticsearch scores bounded by the system's
normalization cap 10000 (and ≥ 0), and any years ≥ 0, a candidate with at
least one `'exact'`-tier result row has a strictly greater aggregator final
score than any candidate none of whose rows is `'exact'`-tier. -/
theorem C1_amended (rows : List ScoreRow) (a b : ℕ)
    (hes : ∀ r ∈ rows, 0 ≤ r.elasticsearch_score.getD 0 ∧
        r.elasticsearch_score.getD 0 ≤ 10000)
    (hyears : ∀ r ∈ rows, 0 ≤ r.years)
    (ha : ∃ r ∈ rows, r.candidate_id = a ∧ r.match_tier = some "exact")
    (hb : ∀ r ∈ rows, r.candidate_id = b → ¬ r.match_tier = some "exact") :
    candidateScoreOf rows b < candidateScoreOf rows a := by
  obtain ⟨rA, hrA, hcidA, htA⟩ := ha
  have heA : exp_data_of_row rA ∈ candExps rows a := mem_candExps_of_mem hrA a hcidA
  -- lower bound for candidate a
  have hAlb : 1130 ≤ candidateScoreOf rows a := by
    cases hAe : candExps rows a with
    | nil => rw [hAe] at heA; simp at heA
    | cons e rest =>
      have hbestmem : maxByScore e rest ∈ candExps rows a := by
        rw [hAe]; exact maxByScore_mem e rest
      have h130 : (130 : ℚ) ≤ (exp_data_of_row rA).combined_score := by
        rw [exp_score_eq]
        exact tier_score_exact_lb rA rA.years htA (hes rA hrA).1
      have hbest_ge :
          (exp_data_of_row rA).combined_score ≤ (maxByScore e rest).combined_score := by
        apply le_maxByScore
        rw [← hAe]; exact heA
      have hbest_exact : (maxByScore e rest).match_tier = "exact" := by
        obtain ⟨rb, hrb, _, hxb⟩ := of_mem_candExps hbestmem
        by_contra hne
        have hnx : ¬ rb.match_tier = some "exact" := by
          intro hsome
          exact hne (by rw [hxb]; exact (exp_tier_exact_iff rb).mpr hsome)
        have hub : (maxByScore e rest).combined_score ≤ 28 := by
          rw [hxb, exp_score_eq]
          exact tier_score_nonexact_ub rb rb.years hnx (hes rb hrb).1 (hes rb hrb).2
        linarith
      have hadd :
          0 ≤ ((rest.take 2).map (fun x => x.combined_score * (1/10))).sum := by
        apply List.sum_nonneg
        intro q hq
        obtain ⟨x, hx, rfl⟩ := List.mem_map.mp hq
        have hx' : x ∈ candExps rows a := by
          rw [hAe]; exact List.mem_cons_of_mem _ (List.mem_of_mem_take hx)
        obtain ⟨rx, hrx, _, rfl⟩ := of_mem_candExps hx'
        have h0 : 0 ≤ (exp_data_of_row rx).combined_score := by
          rw [exp_score_eq]
          exact tier_score_nonneg rx rx.years (hes rx hrx).1
        have : (0 : ℚ) ≤ 1/10 := by norm_num
        exact mul_nonneg h0 this
      unfold candidateScoreOf
      rw [hAe, final_score_cons, if_pos hbest_exact]
      linarith
  -- upper bound for candidate b
  have hBexps : ∀ x ∈ candExps rows b,
      0 ≤ x.combined_score ∧ x.combined_score ≤ 28 := by
    intro x hx
    obtain ⟨rx, hrx, hcx, rfl⟩ := of_mem_candExps hx
    have hnx : ¬ rx.match_tier = some "exact" := hb rx hrx hcx
    rw [exp_score_eq]
    exact ⟨tier_score_nonneg rx rx.years (hes rx hrx).1,
      tier_score_nonexact_ub rx rx.years hnx (hes rx hrx).1 (hes rx hrx).2⟩
  have hBub : candidateScoreOf rows b ≤ 168/5 := by
    cases hBe : candExps rows b with
    | nil =>
      unfold candidateScoreOf
      rw [hBe]
      norm_num [calculate_candidate_final_score_fixed]
    | cons e' rest' =>
      have hbestmem : maxByScore e' rest' ∈ candExps rows b := by
        rw [hBe]; exact maxByScore_mem e' rest'
      have hbub := (hBexps _ hbestmem).2
      have hbest_ne : ¬ (maxByScore e' rest').match_tier = "exact" := by
        obtain ⟨rb', hrb', hcb', hxb'⟩ := of_mem_candExps hbestmem
        intro hx
        rw [hxb'] at hx
        exact hb rb' hrb' hcb' ((exp_tier_exact_iff rb').mp hx)
      have haddub :
          ((rest'.take 2).map (fun x => x.combined_score * (1/10))).sum ≤
            2 * (28/10) := by
        apply list_sum_le_two_mul (by norm_num)
        · rw [List.length_map]
          exact le_trans (List.length_take_le 2 rest') (le_refl 2)
        · intro q hq
          obtain ⟨x, hx, rfl⟩ := List.mem_map.mp hq
          have hx' : x ∈ candExps rows b := by
            rw [hBe]; exact List.mem_cons_of_mem _ (List.mem_of_mem_take hx)
          have := (hBexps _ hx').2
          linarith
      unfold candidateScoreOf
      rw [hBe, final_score_cons, if_neg hbest_ne]
      linarith
  linarith

unseal Rat.mul Rat.add Rat.sub Rat.inv in
/-- C1 witness: a concrete instance of the amended theorem.  On
`witnessRows`, candidate 1 (who has an exact row) strictly outranks
candidate 2 (whose rows are all relevant-tier). -/
theorem C1_amended_witness :
    candidateScoreOf witnessRows 2 < candidateScoreOf witnessRows 1 :=
  C1_amended witnessRows 1 2 (by decide) (by decide) (by decide) (by decide)

/-! ## Claim C2 -/

unseal Rat.mul Rat.add Rat.sub Rat.inv in
/-- C2, as stated, is false: with unconstrained elasticsearch scores a
relevant-tier per-experience score can exceed an exact-tier one.  An exact
row with elasticsearch score 0 scores 130, while a relevant row with
elasticsearch score 10^6 scores 1212. -/
theorem C2_counterexample :
    calculate_tier_score_fixed exactRow0 0 = 130 ∧
    calculate_tier_score_fixed bigRelevantRow 0 = 1212 ∧
    ¬ calculate_tier_score_fixed bigRelevantRow 0 <
        calculate_tier_score_fixed exactRow0 0 := by
  decide

/-- C2 (amended): for elasticsearch scores in [0, 10000] and any years ≥ 0,
every exact-tier per-experience score strictly exceeds every per-experience
score of any other tier, and every relevant-tier score strictly exceeds
every score of any tier other than exact and relevant, regardless of the
experience-duration multiplier. -/
theorem C2_amended (r1 r2 : ScoreRow) (y1 y2 : ℚ)
    (h1 : 0 ≤ r1.elasticsearch_score.getD 0 ∧ r1.elasticsearch_score.getD 0 ≤ 10000)
    (h2 : 0 ≤ r2.elasticsearch_score.getD 0 ∧ r2.elasticsearch_score.getD 0 ≤ 10000)
    (hy1 : 0 ≤ y1) (hy2 : 0 ≤ y2) :
    (r1.match_tier = some "exact" → ¬ r2.match_tier = some "exact" →
      calculate_tier_score_fixed r2 y2 < calculate_tier_score_fixed r1 y1) ∧
    (r1.match_tier = some "relevant" → ¬ r2.match_tier = some "exact" →
      ¬ r2.match_tier = some "relevant" →
      calculate_tier_score_fixed r2 y2 < calculate_tier_score_fixed r1 y1) := by
  constructor
  · intro ht1 ht2
    have hlb := tier_score_exact_lb r1 y1 ht1 h1.1
    have hub := tier_score_nonexact_ub r2 y2 ht2 h2.1 h2.2
    linarith
  · intro ht1 ht2 ht3
    have hlb := tier_score_relevant_lb r1 y1 ht1 h1.1
    have hub := tier_score_other_ub r2 y2 ht2 ht3 h2.1 h2.2
    linarith

unseal Rat.mul Rat.add Rat.sub Rat.inv in
/-- C2 witness: concrete instances of both band separations at maximal
elasticsearch score 10000 for the lower tier. -/
theorem C2_amended_witness :
    calculate_tier_score_fixed (⟨1, some "relevant", some 10000, none, none, none, 9⟩) 9 <
      calculate_tier_score_fixed exactRow0 0 ∧
    calculate_tier_score_fixed (⟨1, some "similar", some 10000, none, none, none, 9⟩) 9 <
      calculate_tier_score_fixed (⟨1, some "relevant", some 0, none, none, none, 0⟩) 0 :=
  ⟨(C2_amended exactRow0 ⟨1, some "relevant", some 10000, none, none, none, 9⟩ 0 9
      (by decide) (by decide) (by decide) (by decide)).1 (by decide) (by decide),
   (C2_amended ⟨1, some "relevant", some 0, none, none, none, 0⟩
      ⟨1, some "similar", some 10000, none, none, none, 9⟩ 0 9
      (by decide) (by decide) (by decide) (by decide)).2 (by decide) (by decide) (by decide)⟩

/-! ## Claim C5 -/

unseal Rat.mul Rat.add Rat.sub Rat.inv in
/-- C5, as stated, is false: the additional 0.1-weighted term sums the
second and third experiences of the candidate's list (which is ordered by
tier priority then elasticsearch score), not the two largest scores other
than the best.  On three exact rows with scores [260, 304, 160] (in list
order), the best is 304 and the code adds 0.1×(304+160), counting the best
again, while the claim's formula adds 0.1×(260+160). -/
theorem C5_counterexample :
    candidateScoreOf [c5row1, c5row2, c5row3] 1 = 6752/5 ∧
    claimFinalScoreC5 (candExps [c5row1, c5row2, c5row3] 1) = some 1346 ∧
    ¬ claimFinalScoreC5 (candExps [c5row1, c5row2, c5row3] 1) =
        some (candidateScoreOf [c5row1, c5row2, c5row3] 1) := by
  decide

/-- C5 (amended): for every candidate in the aggregator output, the final
score equals the best experience score, plus 1000 exactly when the best
experience is exact-tier, plus 0.1 times the sum of the scores of the
experiences at positions 1 and 2 of the candidate's experience list (taken
in its tier-priority/elasticsearch-score order, whether or not these are
the two largest remaining scores, and double-counting the best experience
when it sits at one of those positions). -/
theorem C5_amended (rows : List ScoreRow) (thr : ℚ) (lim : ℕ)
    (c : CandidateResponse)
    (hc : c ∈ score_tier_based_results_fixed rows thr lim) :
    ∃ e rest, candExps rows c.candidate_id = e :: rest ∧
      c.final_score =
        (if (maxByScore e rest).match_tier = "exact"
          then 1000 + (maxByScore e rest).combined_score
          else (maxByScore e rest).combined_score) +
        ((rest.take 2).map (fun x => x.combined_score * (1/10))).sum := by
  obtain ⟨hfs, hne⟩ := mem_tier_output hc
  cases hAe : candExps rows c.candidate_id with
  | nil => exact absurd hAe hne
  | cons e rest =>
    refine ⟨e, rest, rfl, ?_⟩
    rw [hfs]
    unfold candidateScoreOf
    rw [hAe, final_score_cons]

unseal Rat.mul Rat.add Rat.sub Rat.inv in
/-- C5 witness: the amended decomposition applied to the single candidate
returned for one exact row. -/
theorem C5_amended_witness :
    ∃ e rest,
      candExps [exactRow0]
          (⟨1, 1130, [⟨0, 130, "exact", 0, 1000000⟩]⟩ : CandidateResponse).candidate_id =
        e :: rest ∧
      (⟨1, 1130, [⟨0, 130, "exact", 0, 1000000⟩]⟩ : CandidateResponse).final_score =
        (if (maxByScore e rest).match_tier = "exact"
          then 1000 + (maxByScore e rest).combined_score
          else (maxByScore e rest).combined_score) +
        ((rest.take 2).map (fun x => x.combined_score * (1/10))).sum :=
  C5_amended [exactRow0] 0 10 ⟨1, 1130, [⟨0, 130, "exact", 0, 1000000⟩]⟩ (by decide)

/-! ## Claim C6 -/

/-- C6: for a fixed result list and limit, the candidate count returned by
`score_and_rank_candidates` is antitone in the score threshold, on both the
tier-based and the legacy path. -/
theorem C6_threshold_antitone (keyword_weight semantic_weight : ℚ)
    (rows : List ScoreRow) (lim : ℕ) (t1 t2 : ℚ) (h : t1 ≤ t2) :
    (score_and_rank_candidates keyword_weight semantic_weight rows t2 lim).length ≤
      (score_and_rank_candidates keyword_weight semantic_weight rows t1 lim).length := by
  unfold score_and_rank_candidates
  by_cases hd : hasTiers rows
  · rw [if_pos hd, if_pos hd]
    exact tier_count_mono rows lim h
  · rw [if_neg hd, if_neg hd]
    exact legacy_count_mono keyword_weight semantic_weight rows lim h

/-- C6 witness: raising the threshold from 0 to 20 on `witnessRows` does not
increase the returned candidate count. -/
theorem C6_witness :
    (score_and_rank_candidates (8/10) (2/10) witnessRows 20 10).length ≤
      (score_and_rank_candidates (8/10) (2/10) witnessRows 0 10).length :=
  C6_threshold_antitone (8/10) (2/10) witnessRows 10 0 20 (by norm_num)

/-! ## Claim C10 -/

/-- C10: the final score of any candidate present in the output is
independent of the score threshold — two runs of the tier-based scorer on
the same rows and limit that differ only in threshold assign the same
final score to any candidate appearing in both outputs (the threshold only
filters experiences and candidates, the score is computed beforehand over
all of the candidate's experiences). -/
theorem C10_threshold_noninterference (rows : List ScoreRow) (lim : ℕ)
    (t1 t2 : ℚ) (c1 c2 : CandidateResponse)
    (h1 : c1 ∈ score_tier_based_results_fixed rows t1 lim)
    (h2 : c2 ∈ score_tier_based_results_fixed rows t2 lim)
    (hid : c1.candidate_id = c2.candidate_id) :
    c1.final_score = c2.final_score := by
  rw [(mem_tier_output h1).1, (mem_tier_output h2).1, hid]

/-! ## Helper lemmas: tiered retrieval -/

lemma mem_tagged {t : String} {p : ℚ} {l : List EsDoc} {d : TaggedDoc}
    (hd : d ∈ l.map (tagDoc t p)) :
    d.match_tier = t ∧ d.id ∈ l.map (fun x => x.id) := by
  obtain ⟨x, hx, rfl⟩ := List.mem_map.mp hd
  exact ⟨rfl, List.mem_map_of_mem _ hx⟩

lemma get_relevant_not_excluded {resp : EsResponse} {lim : ℕ} {excl : List ℕ}
    {d : EsDoc} (hd : d ∈ get_relevant_matches resp lim excl) : ¬ d.id ∈ excl := by
  cases resp with
  | error e => simp [get_relevant_matches] at hd
  | ok hits =>
    have hd' := List.mem_of_mem_take (l := hits.filter _) hd
    exact of_decide_eq_true (List.mem_filter.mp hd').2

lemma get_similar_not_excluded {resp : EsResponse} {lim : ℕ} {excl : List ℕ}
    {d : EsDoc} (hd : d ∈ get_similar_matches resp lim excl) : ¬ d.id ∈ excl := by
  cases resp with
  | error e => simp [get_similar_matches] at hd
  | ok hits =>
    have hd' := List.mem_of_mem_take (l := hits.filter _) hd
    exact of_decide_eq_true (List.mem_filter.mp hd').2

lemma swpl_relevant_not_excluded {E : List EsDoc} {resp : EsResponse} {lim : ℕ}
    {d : EsDoc} (hd : d ∈ swpl_relevant E resp lim) :
    ¬ d.id ∈ E.map (fun r => r.id) := by
  unfold swpl_relevant at hd
  split at hd
  · exact get_relevant_not_excluded hd
  · simp at hd

lemma swpl_similar_not_excluded {E R : List EsDoc} {resp : EsResponse} {lim : ℕ}
    {d : EsDoc} (hd : d ∈ swpl_similar E R resp lim) :
    ¬ d.id ∈ (E ++ R).map (fun r => r.id) := by
  unfold swpl_similar at hd
  split at hd
  · exact get_similar_not_excluded hd
  · simp at hd

/-- A document tagged from the relevant pass carries an id excluded from the
exact tier. -/
lemma rel_tag_id_not_exact {E : List EsDoc} {resp : EsResponse} {lim : ℕ}
    {d : TaggedDoc} {t : String} {p : ℚ}
    (hd : d ∈ (swpl_relevant E resp lim).map (tagDoc t p)) :
    ¬ d.id ∈ E.map (fun r => r.id) := by
  obtain ⟨x, hx, rfl⟩ := List.mem_map.mp hd
  exact swpl_relevant_not_excluded hx

/-- A document tagged from the similar pass carries an id excluded from both
earlier tiers. -/
lemma sim_tag_id_not_prior {E R : List EsDoc} {resp : EsResponse} {lim : ℕ}
    {d : TaggedDoc} {t : String} {p : ℚ}
    (hd : d ∈ (swpl_similar E R resp lim).map (tagDoc t p)) :
    ¬ d.id ∈ (E ++ R).map (fun r => r.id) := by
  obtain ⟨x, hx, rfl⟩ := List.mem_map.mp hd
  exact swpl_similar_not_excluded hx

/-! ## Claim C7 -/

/-- C7: in any run of the tiered lexical retrieval, no experience id appears
in more than one of the tiers exact / relevant / similar: any two returned
documents with the same experience id carry the same tier tag (the relevant
pass excludes all exact ids, the similar pass excludes all ids of both
earlier passes). -/
theorem C7_tier_exclusivity (exactResp relevantResp similarResp : EsResponse)
    (limit : ℕ) (l : List TaggedDoc)
    (hl : search_with_priority_layers exactResp relevantResp similarResp limit =
      Except.ok l)
    (d1 d2 : TaggedDoc) (h1 : d1 ∈ l) (h2 : d2 ∈ l) (hid : d1.id = d2.id) :
    d1.match_tier = d2.match_tier := by
  unfold search_with_priority_layers at hl
  injection hl with hl
  subst hl
  have hmem : ∀ d ∈ (List.insertionSort
      (descLex (fun d : TaggedDoc => d.tier_priority)
        (fun d : TaggedDoc => d.elasticsearch_score))
      (swpl_all_results exactResp relevantResp similarResp limit)).take limit,
      d ∈ (get_exact_matches_english exactResp).map (tagDoc "exact" 1000000) ∨
      d ∈ (swpl_relevant (get_exact_matches_english exactResp) relevantResp
          limit).map (tagDoc "relevant" 100000) ∨
      d ∈ (swpl_similar (get_exact_matches_english exactResp)
          (swpl_relevant (get_exact_matches_english exactResp) relevantResp limit)
          similarResp limit).map (tagDoc "similar" 10000) := by
    intro d hd
    have hd1 := List.mem_of_mem_take hd
    have hd2 := (List.perm_insertionSort _ _).mem_iff.mp hd1
    unfold swpl_all_results at hd2
    rcases List.mem_append.mp hd2 with h | h
    · rcases List.mem_append.mp h with h' | h'
      · exact Or.inl h'
      · exact Or.inr (Or.inl h')
    · exact Or.inr (Or.inr h)
  have f1 := hmem d1 h1
  have f2 := hmem d2 h2
  -- id-level facts per segment
  rcases f1 with hA1 | hB1 | hC1 <;> rcases f2 with hA2 | hB2 | hC2
  · rw [(mem_tagged hA1).1, (mem_tagged hA2).1]
  · exfalso
    have hin := (mem_tagged hA1).2
    rw [hid] at hin
    exact rel_tag_id_not_exact hB2 hin
  · exfalso
    have hin := (mem_tagged hA1).2
    rw [hid] at hin
    apply sim_tag_id_not_prior hC2
    rw [List.map_append]
    exact List.mem_append_left _ hin
  · exfalso
    have hin := (mem_tagged hA2).2
    rw [← hid] at hin
    exact rel_tag_id_not_exact hB1 hin
  · rw [(mem_tagged hB1).1, (mem_tagged hB2).1]
  · exfalso
    have hin := (mem_tagged hB1).2
    rw [hid] at hin
    apply sim_tag_id_not_prior hC2
    rw [List.map_append]
    exact List.mem_append_right _ hin
  · exfalso
    have hin := (mem_tagged hA2).2
    rw [← hid] at hin
    apply sim_tag_id_not_prior hC1
    rw [List.map_append]
    exact List.mem_append_left _ hin
  · exfalso
    have hin := (mem_tagged hB2).2
    rw [← hid] at hin
    apply sim_tag_id_not_prior hC1
    rw [List.map_append]
    exact List.mem_append_right _ hin
  · rw [(mem_tagged hC1).1, (mem_tagged hC2).1]

unseal Rat.mul Rat.add Rat.sub Rat.inv in
/-- C7 witness: a concrete run where the relevant pass's raw hits repeat an
exact id (the backend's `must_not` exclusion removes it), applied to the
two returned documents sharing experience id 1. -/
theorem C7_witness :
    (tagDoc "exact" 1000000 sampleDoc).match_tier =
      (tagDoc "exact" 1000000 sampleDoc).match_tier :=
  C7_tier_exclusivity (Except.ok [sampleDoc]) (Except.ok [sampleDoc2])
    (Except.ok []) 10 _ rfl
    (tagDoc "exact" 1000000 sampleDoc) (tagDoc "exact" 1000000 sampleDoc)
    (by decide) (by decide) rfl

/-! ## Claim C8 -/

unseal Rat.mul Rat.add Rat.sub Rat.inv in
/-- C8, as stated, is false in its second half: a hard connectivity failure
on the first (exact) pass is caught inside `_get_exact_matches_english`
(which returns `[]`), so the call completes normally with the other
passes' results instead of raising `IndexUnavailable` — no such error
exists anywhere in the code. -/
theorem C8_counterexample :
    search_with_priority_layers (Except.error ()) (Except.ok [sampleDoc])
        (Except.ok []) 10 =
      Except.ok [tagDoc "relevant" 100000 sampleDoc] ∧
    ¬ search_with_priority_layers (Except.error ()) (Except.ok [sampleDoc])
        (Except.ok []) 10 =
      Except.error SearchError.indexUnavailable := by
  have heq : search_with_priority_layers (Except.error ()) (Except.ok [sampleDoc])
      (Except.ok []) 10 = Except.ok [tagDoc "relevant" 100000 sampleDoc] := rfl
  refine ⟨heq, ?_⟩
  rw [heq]
  simp

/-- C8 (amended): any retrieval-backend error in a pass — including a hard
connectivity failure on the first (exact) pass — yields an empty result for
that pass only, exactly as if the backend had returned no hits; the other
passes and the overall call still complete, and the call always returns a
result (never `IndexUnavailable`). -/
theorem C8_amended (exactResp relevantResp similarResp : EsResponse) (limit : ℕ) :
    search_with_priority_layers (Except.error ()) relevantResp similarResp limit =
      search_with_priority_layers (Except.ok []) relevantResp similarResp limit ∧
    search_with_priority_layers exactResp (Except.error ()) similarResp limit =
      search_with_priority_layers exactResp (Except.ok []) similarResp limit ∧
    search_with_priority_layers exactResp relevantResp (Except.error ()) limit =
      search_with_priority_layers exactResp relevantResp (Except.ok []) limit ∧
    ∃ l, search_with_priority_layers exactResp relevantResp similarResp limit =
      Except.ok l := by
  refine ⟨?_, ?_, ?_, ⟨_, rfl⟩⟩
  · have hE : get_exact_matches_english (Except.error ()) =
        get_exact_matches_english (Except.ok []) := rfl
    simp only [search_with_priority_layers, swpl_all_results, hE]
  · have hR : ∀ n excl, get_relevant_matches (Except.error ()) n excl =
        get_relevant_matches (Except.ok []) n excl := by
      intro n excl
      simp [get_relevant_matches]
    simp only [search_with_priority_layers, swpl_all_results, swpl_relevant, hR]
  · have hS : ∀ n excl, get_similar_matches (Except.error ()) n excl =
        get_similar_matches (Except.ok []) n excl := by
      intro n excl
      simp [get_similar_matches]
    simp only [search_with_priority_layers, swpl_all_results, swpl_similar, hS]

/-! ## Claim C9 -/

/-- C9: when both the position text and the description text are empty or
whitespace-only, the search endpoint fails with the empty-query error (the
400 "Invalid or empty search query" response the spec calls `EmptyQuery`)
and performs zero retrieval calls, for every behaviour of the translator /
embedding stage and of the retrieval backends. -/
theorem C9_empty_query (processNonEmpty : String → String → QueryOutput)
    (retrieve : String → List ScoreRow) (keyword_weight semantic_weight : ℚ)
    (position description : String) (score_threshold : ℚ) (limit : ℕ)
    (hpos : pyStrip position = "") (hdesc : pyStrip description = "") :
    search_candidates processNonEmpty retrieve keyword_weight semantic_weight
        position description score_threshold limit =
      (SearchOutcome.emptyQuery, 0) := by
  unfold search_candidates process_query
  rw [hpos, hdesc]
  simp

/-- C9 witness: whitespace-only position and empty description produce the
empty-query failure and no retrieval call, for a translator stub and a
retrieval stub. -/
theorem C9_witness :
    search_candidates (fun p d => ⟨p ++ " " ++ d, p, d, none⟩) (fun _ => [])
        (8/10) (2/10) "   " "" (1/10) 100 = (SearchOutcome.emptyQuery, 0) :=
  C9_empty_query (fun p d => ⟨p ++ " " ++ d, p, d, none⟩) (fun _ => [])
    (8/10) (2/10) "   " "" (1/10) 100 (by decide) (by decide)

unseal Rat.mul Rat.add Rat.sub Rat.inv in
/-- C10 witness: on runs with thresholds 0 and 2, candidate 1 is returned
with different experience lists but the same final score 113011/100. -/
theorem C10_witness :
    (⟨1, 113011/100, [⟨0, 130, "exact", 0, 1000000⟩, ⟨0, 11/10, "similar", 0, 10000⟩]⟩ :
        CandidateResponse).final_score =
      (⟨1, 113011/100, [⟨0, 130, "exact", 0, 1000000⟩]⟩ : CandidateResponse).final_score :=
  C10_threshold_noninterference [exactRow0, similarRow1] 10 0 2
    ⟨1, 113011/100, [⟨0, 130, "exact", 0, 1000000⟩, ⟨0, 11/10, "similar", 0, 10000⟩]⟩
    ⟨1, 113011/100, [⟨0, 130, "exact", 0, 1000000⟩]⟩
    (by decide) (by decide) rfl

end CandidateMatching
